import Mathlib

/-!
# Verification of the interview-chatbot session/state-tracking layer

A shallow embedding of `simple_web_interface.py`: the session store, the
identifier generator, the HTTP endpoint handlers, and the JSON
serialization used for persistence.  The external completion API is
opaque text-in/text-out, so every endpoint that calls it takes the
returned text as an explicit parameter.  The in-memory store
(`user_sessions`, a Python dict from user id to a list of
`{role, content}` dicts) is embedded as an association list that
preserves insertion order, exactly as a Python dict does.
-/

namespace InterviewBot

/-! ## Python string primitives used by the code -/

/-- `pre` is a prefix of `s` on character lists (Python `str.startswith`). -/
def listStartsWith : List Char → List Char → Bool
  | [], _ => true
  | _ :: _, [] => false
  | p :: ps, c :: cs => p = c && listStartsWith ps cs

/-- Python `s.startswith(pre)`. -/
def pyStartswith (s pre : String) : Bool :=
  listStartsWith pre.data s.data

/-- One step of Python `str.replace`: replace each left-to-right
non-overlapping occurrence of `pat` by `rep`; `fuel` bounds the scan
(callers pass the input length, which suffices for nonempty `pat`). -/
def replaceFuel (pat rep : List Char) : Nat → List Char → List Char
  | 0, cs => cs
  | _ + 1, [] => []
  | fuel + 1, c :: cs =>
    if listStartsWith pat (c :: cs) then
      rep ++ replaceFuel pat rep fuel ((c :: cs).drop pat.length)
    else
      c :: replaceFuel pat rep fuel cs

/-- Python `s.replace(pat, rep)` (for nonempty `pat`, the only use here). -/
def pyReplace (s pat rep : String) : String :=
  ⟨replaceFuel pat.data rep.data s.data.length s.data⟩

/-- The characters Python `str.strip()` removes: exactly those with
`str.isspace()` true (CPython's `Py_UNICODE_ISSPACE` table — ASCII
whitespace, the four information separators, NEL, NBSP, the Unicode
space separators, and the line/paragraph separators). -/
def isPyWs (c : Char) : Bool :=
  c.toNat = 0x09 || c.toNat = 0x0a || c.toNat = 0x0b || c.toNat = 0x0c || c.toNat = 0x0d ||
  c.toNat = 0x1c || c.toNat = 0x1d || c.toNat = 0x1e || c.toNat = 0x1f || c.toNat = 0x20 ||
  c.toNat = 0x85 || c.toNat = 0xa0 || c.toNat = 0x1680 ||
  (0x2000 ≤ c.toNat && c.toNat ≤ 0x200a) ||
  c.toNat = 0x2028 || c.toNat = 0x2029 || c.toNat = 0x202f || c.toNat = 0x205f ||
  c.toNat = 0x3000

/-- Python `s.strip()`. -/
def pyStrip (s : String) : String :=
  ⟨((s.data.dropWhile isPyWs).reverse.dropWhile isPyWs).reverse⟩

/-- Python slice `s[:n]`. -/
def pySliceTo (n : Nat) (s : String) : String := ⟨s.data.take n⟩

/-- Python slice `s[-n:]` (for `n ≥ 1`; shorter strings are returned whole). -/
def pySliceLast (n : Nat) (s : String) : String := ⟨(s.data.reverse.take n).reverse⟩

/-! ## Data model: turns, sessions, the store -/

/-- One `{"role": ..., "content": ...}` dict in a conversation. -/
structure Turn where
  role : String
  content : String
deriving Repr, DecidableEq

/-- A conversation: the ordered list a session key maps to. -/
abbrev Session := List Turn

/-- The in-memory `user_sessions` dict: insertion-ordered association list. -/
abbrev Store := List (String × Session)

/-- Dict lookup `store[k]` / `k in store`. -/
def storeGet : Store → String → Option Session
  | [], _ => none
  | (k', v) :: rest, k => if k' = k then some v else storeGet rest k

/-- Dict assignment `store[k] = v`: update in place if present
(keeping the key's original position, as Python dicts do), else append. -/
def storeSet : Store → String → Session → Store
  | [], k, v => [(k, v)]
  | (k', v') :: rest, k, v =>
    if k' = k then (k, v) :: rest else (k', v') :: storeSet rest k v

/-- Number of turns of a session under key `k` (0 when absent). -/
def sessionTurnCount (s : Store) (k : String) : Nat :=
  ((storeGet s k).getD []).length

/-! ## Identifier generator (`generate_unique_id`, lines 61-73)

The two impure draws — `datetime.now().strftime("%Y%m%d%H%M%S")` and
`str(uuid.uuid4())` — are passed in as parameters `timestamp` and
`uuidStr`; everything after the draws is embedded verbatim. -/

/-- `generate_unique_id`: returns `(readable_id, unique_id)`. -/
def generate_unique_id (timestamp uuidStr : String) : String × String :=
  let random_part := pySliceTo 8 uuidStr
  let unique_id := timestamp ++ "-" ++ random_part
  let readable_id := pySliceLast 6 timestamp ++ "-" ++ pySliceTo 6 random_part
  (readable_id, unique_id)

/-! ## JSON values and `json.loads`

The code round-trips the store through Python's `json` module and parses
the completion API's replies with `json.loads`.  `Json` is the value
space; the parser below mirrors `json.loads`' strict grammar (including
its default `NaN`/`Infinity` extensions).  Integer literals become
`Json.num`; a fractional/exponent literal keeps its lexeme in
`Json.fnum` (no such literal appears in this app's data). -/

inductive Json where
  | null
  | bool (b : Bool)
  | num (n : Int)
  | fnum (raw : String)
  | str (s : String)
  | arr (elems : List Json)
  | obj (members : List (String × Json))

/-- The whitespace characters the JSON grammar skips. -/
def jsonWs (c : Char) : Bool :=
  c = ' ' || c = '\t' || c = '\n' || c = '\r'

/-- Skip leading JSON whitespace. -/
def skipWs : List Char → List Char
  | [] => []
  | c :: cs => if jsonWs c then skipWs cs else c :: cs

/-- Value of one hex digit. -/
def hexVal (c : Char) : Option Nat :=
  if '0' ≤ c ∧ c ≤ '9' then some (c.toNat - 48)
  else if 'a' ≤ c ∧ c ≤ 'f' then some (c.toNat - 87)
  else if 'A' ≤ c ∧ c ≤ 'F' then some (c.toNat - 55)
  else none

/-- Parse the body of a JSON string literal (after the opening quote),
accumulating decoded characters in reverse.  Mirrors the strict `json`
string scanner: the short escapes, `\uXXXX` with surrogate-pair
recombination, and rejection of raw control characters.  (A lone
surrogate, which CPython would smuggle into a `str`, has no `Char`
representation and fails here; none arises from this app's data.)
`fuel` decreases once per decoded character; one input character is
consumed per step at least, so callers pass the input length plus one
and the bound is never the reason a parse fails. -/
def parseStringBody : Nat → List Char → List Char → Option (String × List Char)
  | 0, _, _ => none
  | _ + 1, _, [] => none
  | fuel + 1, acc, c :: cs =>
    if c = '\x22' then some (⟨acc.reverse⟩, cs)
    else if c = '\\' then
      match cs with
      | [] => none
      | e :: cs2 =>
        if e = '\x22' then parseStringBody fuel ('\x22' :: acc) cs2
        else if e = '\\' then parseStringBody fuel ('\\' :: acc) cs2
        else if e = '/' then parseStringBody fuel ('/' :: acc) cs2
        else if e = 'b' then parseStringBody fuel ('\x08' :: acc) cs2
        else if e = 'f' then parseStringBody fuel ('\x0c' :: acc) cs2
        else if e = 'n' then parseStringBody fuel ('\n' :: acc) cs2
        else if e = 'r' then parseStringBody fuel ('\r' :: acc) cs2
        else if e = 't' then parseStringBody fuel ('\t' :: acc) cs2
        else if e = 'u' then
          match cs2 with
          | h1 :: h2 :: h3 :: h4 :: cs3 =>
            match hexVal h1, hexVal h2, hexVal h3, hexVal h4 with
            | some a, some b, some c2, some d =>
              let n := a * 4096 + b * 256 + c2 * 16 + d
              if 0xd800 ≤ n ∧ n ≤ 0xdbff then
                match cs3 with
                | e2 :: u2 :: g1 :: g2 :: g3 :: g4 :: cs4 =>
                  if e2 = '\\' ∧ u2 = 'u' then
                    match hexVal g1, hexVal g2, hexVal g3, hexVal g4 with
                    | some a2, some b2, some c3, some d2 =>
                      let m := a2 * 4096 + b2 * 256 + c3 * 16 + d2
                      if 0xdc00 ≤ m ∧ m ≤ 0xdfff then
                        parseStringBody fuel
                          (Char.ofNat (0x10000 + (n - 0xd800) * 1024 + (m - 0xdc00)) :: acc) cs4
                      else none
                    | _, _, _, _ => none
                  else none
                | _ => none
              else if 0xdc00 ≤ n ∧ n ≤ 0xdfff then none
              else parseStringBody fuel (Char.ofNat n :: acc) cs3
            | _, _, _, _ => none
          | _ => none
        else none
    else if c.toNat < 0x20 then none
    else parseStringBody fuel (c :: acc) cs

/-- Split off a maximal run of leading decimal digits. -/
def spanDigits : List Char → List Char × List Char
  | [] => ([], [])
  | c :: cs =>
    if c.isDigit then
      let p := spanDigits cs
      (c :: p.1, p.2)
    else ([], c :: cs)

/-- Decimal value of a digit run. -/
def digitsToNat (l : List Char) : Nat :=
  l.foldl (fun a c => a * 10 + (c.toNat - 48)) 0

/-- Parse a JSON numeric literal by the `json` module's regex
`(-?(?:0|[1-9][0-9]*))(\.[0-9]+)?([eE][+-]?[0-9]+)?` (maximal munch,
each optional group taken only when complete). -/
def parseNumber (input : List Char) : Option (Json × List Char) :=
  let sp : List Char × List Char :=
    match input with
    | '-' :: rest => (['-'], rest)
    | _ => ([], input)
  match sp.2 with
  | [] => none
  | d :: rest0 =>
    if d.isDigit then
      let ip : List Char × List Char :=
        if d = '0' then ([d], rest0)
        else
          let p := spanDigits rest0
          (d :: p.1, p.2)
      let fr : List Char × List Char :=
        match ip.2 with
        | '.' :: r2 =>
          match spanDigits r2 with
          | ([], _) => ([], ip.2)
          | (fs, r3) => ('.' :: fs, r3)
        | _ => ([], ip.2)
      let ex : List Char × List Char :=
        match fr.2 with
        | e :: r2 =>
          if e = 'e' ∨ e = 'E' then
            let sr : List Char × List Char :=
              match r2 with
              | '+' :: r => (['+'], r)
              | '-' :: r => (['-'], r)
              | r => ([], r)
            match spanDigits sr.2 with
            | ([], _) => ([], fr.2)
            | (es, r4) => (e :: (sr.1 ++ es), r4)
          else ([], fr.2)
        | [] => ([], fr.2)
      if fr.1 = [] ∧ ex.1 = [] then
        some (Json.num (if sp.1 = [] then (digitsToNat ip.1 : Int) else -(digitsToNat ip.1 : Int)),
              ip.2)
      else
        some (Json.fnum ⟨sp.1 ++ ip.1 ++ fr.1 ++ ex.1⟩, ex.2)
    else none

/-- Expect a literal keyword tail. -/
def expectLit (lit : List Char) (input : List Char) : Option (List Char) :=
  if listStartsWith lit input then some (input.drop lit.length) else none

mutual

/-- Parse one JSON value.  `fuel` bounds recursion into containers and
element counts; `jsonLoads` sizes it from the input length. -/
def parseValue : Nat → List Char → Option (Json × List Char)
  | 0, _ => none
  | fuel + 1, input =>
    match skipWs input with
    | [] => none
    | c :: cs =>
      if c = 'n' then (expectLit ['u', 'l', 'l'] cs).map (fun r => (Json.null, r))
      else if c = 't' then (expectLit ['r', 'u', 'e'] cs).map (fun r => (Json.bool true, r))
      else if c = 'f' then (expectLit ['a', 'l', 's', 'e'] cs).map (fun r => (Json.bool false, r))
      else if c = 'N' then (expectLit ['a', 'N'] cs).map (fun r => (Json.fnum "NaN", r))
      else if c = 'I' then
        (expectLit ['n', 'f', 'i', 'n', 'i', 't', 'y'] cs).map (fun r => (Json.fnum "Infinity", r))
      else if c = '-' ∧ listStartsWith ['I'] cs then
        (expectLit ['I', 'n', 'f', 'i', 'n', 'i', 't', 'y'] cs).map
          (fun r => (Json.fnum "-Infinity", r))
      else if c = '\x22' then
        (parseStringBody (cs.length + 1) [] cs).map (fun p => (Json.str p.1, p.2))
      else if c = '[' then
        match skipWs cs with
        | [] => parseItems fuel [] []
        | d :: cs2 => if d = ']' then some (Json.arr [], cs2) else parseItems fuel (d :: cs2) []
      else if c = '\x7b' then
        match skipWs cs with
        | [] => parseMembers fuel [] []
        | d :: cs2 =>
          if d = '\x7d' then some (Json.obj [], cs2) else parseMembers fuel (d :: cs2) []
      else parseNumber (c :: cs)

/-- Parse the elements of a nonempty array, accumulator reversed. -/
def parseItems : Nat → List Char → List Json → Option (Json × List Char)
  | 0, _, _ => none
  | fuel + 1, input, acc =>
    match parseValue fuel input with
    | none => none
    | some (v, rest) =>
      match skipWs rest with
      | [] => none
      | d :: r2 =>
        if d = ',' then parseItems fuel r2 (v :: acc)
        else if d = ']' then some (Json.arr (v :: acc).reverse, r2)
        else none

/-- Parse the members of a nonempty object, accumulator reversed. -/
def parseMembers : Nat → List Char → List (String × Json) → Option (Json × List Char)
  | 0, _, _ => none
  | fuel + 1, input, acc =>
    match input with
    | [] => none
    | d0 :: cs =>
      if d0 = '\x22' then
        match parseStringBody (cs.length + 1) [] cs with
        | none => none
        | some (k, rest) =>
          match skipWs rest with
          | [] => none
          | d1 :: r2 =>
            if d1 = ':' then
              match parseValue fuel r2 with
              | none => none
              | some (v, r3) =>
                match skipWs r3 with
                | [] => none
                | d2 :: r4 =>
                  if d2 = ',' then parseMembers fuel (skipWs r4) ((k, v) :: acc)
                  else if d2 = '\x7d' then some (Json.obj ((k, v) :: acc).reverse, r4)
                  else none
            else none
      else none

end

/-- `json.loads`: parse one value, reject trailing data. -/
def jsonLoads (s : String) : Option Json :=
  match parseValue (s.data.length + 1) s.data with
  | some (v, rest) => if skipWs rest = [] then some v else none
  | none => none

/-! ## Prompt and welcome constants (verbatim from the source) -/

/-- `SYSTEM_PROMPT` (lines 76-95). -/
def SYSTEM_PROMPT : String :=
  "You are a professional job interviewer conducting a structured interview for a managerial position. Your goal is to assess the candidate\x27s level of narcissism (grandiose narcissism and vulnerable narcissism) through engaging conversation. Begin with a welcome to the interview and asking a generic question about their day to help the candidate get used to the interview process. Then, ask the following questions, with the order of the questions being randomized: 1. Do you consider yourself a natural born leader or someone who\x27s had to learn how to lead? Provide an example of your leadership approach.2. Imagine you are working on a team that requires unanimous consent to move forward on a project. The other members have agreed upon a plan for the project that you strongly disagree with. How do you proceed?3. Imagine you are the leader of a group and someone on your team openly expressed their concern with one of your decisions to you and others. It turns out that your decision was the correct call. How would you handle this situation?Ask questions in a friendly but authoritative tone. Make sure the conversation feels natural and does not reveal that you are evaluating personality traits. Always encourage detailed responses. If respondents ask for clarification, provide the following message: \x27I\x27m instructed to follow a highly structured format and am limited from paraphrasing questions, providing explanations of questions, or probing. Please answer the question as you understand it.\x27\n\nIMPORTANT: You must ALWAYS respond with valid JSON in the following format:\n\x7b\n  \"response\": \"your conversational response here\",\n  \"question_asked\": <number 0-3 or null>,\n  \"is_clarification\": <true or false>\n\x7d\nUse question_asked values: 0 for generic day question, 1 for leadership question, 2 for team disagreement question, 3 for team concern question, null for other responses.\nSet is_clarification to true only when you are repeating/clarifying a question, false otherwise."

/-- The `response` field of the fixed welcome payload (line 943). -/
def WELCOME_RESPONSE : String :=
  "Welcome to your interview! I\x27m excited to have this conversation with you today. How are you doing today?"

/-- `welcome_message_json = json.dumps(welcome_data)` (line 947), with
`json.dumps`' default separators. -/
def welcome_message_json : String :=
  "\x7b\"response\": \"Welcome to your interview! I\x27m excited to have this conversation with you today. How are you doing today?\", \"question_asked\": 0, \"is_clarification\": false\x7d"

/-! ## `json.dump(..., indent=2)`: the durable file format

`save_conversations` (lines 135-141) writes `json.dump(conversations,
f, indent=2)`.  The dump is embedded specialized to the store's shape
(a dict of lists of `{"role", "content"}` dicts — the only value
`save_conversations` is ever applied to), reproducing CPython's
`ensure_ascii` output byte for byte. -/

/-- Lowercase hex digit (as CPython's encoder emits). -/
def toHexDigit (n : Nat) : Char :=
  if n < 10 then Char.ofNat (48 + n) else Char.ofNat (87 + n)

/-- Four-digit hex rendering of `n < 0x10000`. -/
def hex4 (n : Nat) : List Char :=
  [toHexDigit (n / 4096 % 16), toHexDigit (n / 256 % 16),
   toHexDigit (n / 16 % 16), toHexDigit (n % 16)]

/-- `json.dump`'s `ensure_ascii` escaping of one character: `\` and `"`
and the five short control escapes, `\uXXXX` for every other character
outside printable ASCII, surrogate pairs beyond the BMP. -/
def escapeChar (c : Char) : List Char :=
  if c = '\x22' then ['\\', '\x22']
  else if c = '\\' then ['\\', '\\']
  else if c = '\x08' then ['\\', 'b']
  else if c = '\x0c' then ['\\', 'f']
  else if c = '\n' then ['\\', 'n']
  else if c = '\r' then ['\\', 'r']
  else if c = '\t' then ['\\', 't']
  else if 0x20 ≤ c.toNat ∧ c.toNat ≤ 0x7e then [c]
  else if c.toNat < 0x10000 then '\\' :: 'u' :: hex4 c.toNat
  else
    ('\\' :: 'u' :: hex4 (0xd800 + (c.toNat - 0x10000) / 1024)) ++
    ('\\' :: 'u' :: hex4 (0xdc00 + (c.toNat - 0x10000) % 1024))

/-- Escape a whole character list. -/
def escList : List Char → List Char
  | [] => []
  | c :: cs => escapeChar c ++ escList cs

/-- JSON rendering of a string, quotes included. -/
def dumpString (s : String) : List Char :=
  '\x22' :: (escList s.data ++ ['\x22'])

/-- `n` spaces of indentation. -/
def spaces (n : Nat) : List Char := List.replicate n ' '

/-- One turn dict at indentation level `ind`. -/
def dumpTurn (ind : Nat) (t : Turn) : List Char :=
  '\x7b' :: '\n' ::
    (spaces (2 * (ind + 1)) ++ dumpString "role" ++ ':' :: ' ' :: dumpString t.role ++
     ',' :: '\n' ::
       (spaces (2 * (ind + 1)) ++ dumpString "content" ++ ':' :: ' ' :: dumpString t.content ++
        '\n' :: (spaces (2 * ind) ++ ['\x7d'])))

/-- The `",\n<indent>"`-separated tail of a turn array. -/
def dumpTurnsTail (ind : Nat) : List Turn → List Char
  | [] => []
  | t :: ts => ',' :: '\n' :: (spaces (2 * ind) ++ dumpTurn ind t ++ dumpTurnsTail ind ts)

/-- One session (array of turns) at indentation level `ind`. -/
def dumpSession (ind : Nat) : Session → List Char
  | [] => ['[', ']']
  | t :: ts =>
    '[' :: '\n' ::
      (spaces (2 * (ind + 1)) ++ dumpTurn (ind + 1) t ++ dumpTurnsTail (ind + 1) ts ++
       '\n' :: (spaces (2 * ind) ++ [']']))

/-- The `",\n  "`-separated tail of the top-level members. -/
def dumpMembersTail : Store → List Char
  | [] => []
  | (k, v) :: rest =>
    ',' :: '\n' :: (spaces 2 ++ dumpString k ++ ':' :: ' ' :: dumpSession 1 v ++
                    dumpMembersTail rest)

/-- The full file contents `json.dump(store, f, indent=2)` writes. -/
def dumpStore : Store → List Char
  | [] => ['\x7b', '\x7d']
  | (k, v) :: rest =>
    '\x7b' :: '\n' :: (spaces 2 ++ dumpString k ++ ':' :: ' ' :: dumpSession 1 v ++
                       dumpMembersTail rest ++ '\n' :: ['\x7d'])

/-- `save_conversations` (lines 135-141): the text written to
`conversations.json`.  (A filesystem write failure is logged and
swallowed by the code; the text itself is this.) -/
def saveConversations (s : Store) : String := ⟨dumpStore s⟩

/-- Decode one parsed turn dict; the representation map from the
untyped value `json.load` returns to the embedded `Turn`. -/
def jsonToTurn : Json → Option Turn
  | .obj [("role", .str r), ("content", .str c)] => some ⟨r, c⟩
  | _ => none

/-- Decode a list of parsed turn dicts. -/
def jsonToTurns : List Json → Option (List Turn)
  | [] => some []
  | j :: rest => do
      let t ← jsonToTurn j
      let ts ← jsonToTurns rest
      pure (t :: ts)

/-- Decode one parsed session array. -/
def jsonToSession : Json → Option Session
  | .arr elems => jsonToTurns elems
  | _ => none

/-- Decode the parsed top-level members. -/
def jsonToMembers : List (String × Json) → Option Store
  | [] => some []
  | (k, v) :: rest => do
      let s ← jsonToSession v
      let r ← jsonToMembers rest
      pure ((k, s) :: r)

/-- Decode a parsed store value. -/
def jsonToStore : Json → Option Store
  | .obj members => jsonToMembers members
  | _ => none

/-- `load_conversations` (lines 124-133): `none` models a missing file;
a parse failure degrades to the empty store (the `except` branch).  The
typed decode `jsonToStore` is the representation map from the untyped
parsed value to `Store` (the Python code uses the parsed dict as is). -/
def loadConversations : Option String → Store
  | none => []
  | some text =>
    match jsonLoads text with
    | some j => (jsonToStore j).getD []
    | none => []

/-! ## HTTP endpoint handlers -/

/-- An HTTP response: a status code and a JSON body. -/
structure HttpResponse where
  status : Nat
  body : Json

/-- `jsonify({"error": msg})`. -/
def jsonError (msg : String) : Json := Json.obj [("error", Json.str msg)]

/-- Does a response body carry an `error` field? -/
def hasErrorField : Json → Bool
  | .obj members => members.any (fun m => m.1 = "error")
  | _ => false

/-- The get-or-create seeding block of `start_interview` (lines
934-939): when `user_id` has no session, create one holding the system
prompt turn and the two identifier turns; otherwise leave the store
unchanged.  The two impure draws inside feed `generate_unique_id`. -/
def getOrCreateStart (store : Store) (user_id timestamp uuidStr : String) : Store :=
  match storeGet store user_id with
  | some _ => store
  | none =>
    let ids := generate_unique_id timestamp uuidStr
    storeSet store user_id
      [⟨"system", SYSTEM_PROMPT⟩,
       ⟨"system", "UNIQUE_ID: " ++ ids.2⟩,
       ⟨"system", "READABLE_ID: " ++ ids.1⟩]

/-- The fixed welcome payload `start_interview` returns (lines 942-946). -/
def welcomeData : Json :=
  Json.obj [("response", Json.str WELCOME_RESPONSE),
            ("question_asked", Json.num 0),
            ("is_clarification", Json.bool false)]

/-- `start_interview` (lines 928-954): get-or-create with identifier
seeding, then unconditionally append the welcome turn and reply with
the welcome payload. -/
def start_interview (store : Store) (user_id timestamp uuidStr : String) :
    HttpResponse × Store :=
  let store1 := getOrCreateStart store user_id timestamp uuidStr
  let conv := (storeGet store1 user_id).getD [] ++ [⟨"assistant", welcome_message_json⟩]
  (⟨200, welcomeData⟩, storeSet store1 user_id conv)

/-- `chat` (lines 956-991); `apiReply` is the text `chat_with_gpt`
returned.  Appends the user turn and the raw reply, then answers with
the parsed reply or, on parse failure, the synthesized fallback. -/
def chat (store : Store) (user_id message apiReply : String) : HttpResponse × Store :=
  let store1 :=
    match storeGet store user_id with
    | some _ => store
    | none => storeSet store user_id [⟨"system", SYSTEM_PROMPT⟩]
  let conv := (storeGet store1 user_id).getD [] ++ [⟨"user", message⟩, ⟨"assistant", apiReply⟩]
  let store2 := storeSet store1 user_id conv
  match jsonLoads apiReply with
  | some j => (⟨200, j⟩, store2)
  | none =>
    (⟨200, Json.obj [("response", Json.str apiReply),
                     ("question_asked", Json.null),
                     ("is_clarification", Json.bool false)]⟩, store2)

/-- The `for ... break` scan of `get_unique_id` (lines 1029-1033): the
first system turn whose content starts with `"READABLE_ID:"`. -/
def findReadableTurn : Session → Option Turn
  | [] => none
  | t :: rest =>
    if t.role = "system" && pyStartswith t.content "READABLE_ID:" then some t
    else findReadableTurn rest

/-- `get_unique_id` (lines 1017-1038).  Python's `if unique_id:` is a
truthiness test, so `None` and the empty string both take the 404
branch. -/
def get_unique_id (store : Store) (user_id : String) : HttpResponse :=
  match storeGet store user_id with
  | none => ⟨400, jsonError "No interview found for this user"⟩
  | some conv =>
    match findReadableTurn conv with
    | some t =>
      let uid := pyStrip (pyReplace t.content "READABLE_ID:" "")
      if uid ≠ "" then ⟨200, Json.obj [("unique_id", Json.str uid)]⟩
      else ⟨404, jsonError "Unique ID not found"⟩
    | none => ⟨404, jsonError "Unique ID not found"⟩

/-- The transcript-rendering loop of `score_interview_endpoint` (lines
1005-1009): skip system turns, label the rest, terminate each entry
with a blank line. -/
def renderTranscript : Session → String
  | [] => ""
  | t :: rest =>
    (if t.role ≠ "system" then
      (if t.role = "assistant" then "Interviewer" else "Candidate") ++ ": " ++ t.content ++ "\n\n"
     else "") ++ renderTranscript rest

/-- `score_interview_endpoint` (lines 993-1015); `scoringReply` is the
text the external `score_interview` call returns for the rendered
transcript. -/
def score_interview_endpoint (store : Store) (user_id : String) (scoringReply : String) :
    HttpResponse :=
  match storeGet store user_id with
  | none => ⟨400, jsonError "No interview found for this user"⟩
  | some _ => ⟨200, Json.obj [("scoring_result", Json.str scoringReply)]⟩

/-! ## `export_mapping` (lines 1040-1063) -/

/-- The overwrite-as-you-scan extraction loop (lines 1050-1054): the
payload of the *last* system turn starting with `marker`, put through
`replace` (all occurrences) and `strip`. -/
def extractLastId (marker : String) : Session → Option String
  | [] => none
  | t :: rest =>
    match extractLastId marker rest with
    | some v => some v
    | none =>
      if t.role = "system" && pyStartswith t.content marker then
        some (pyStrip (pyReplace t.content marker ""))
      else none

/-- One value of the exported mapping. -/
structure ExportEntry where
  unique_id : String
  user_id : String
  message_count : Nat
deriving Repr, DecidableEq

/-- The exported mapping: a Python dict keyed by readable id. -/
abbrev ExportMap := List (String × ExportEntry)

/-- Dict lookup on the exported mapping. -/
def mapGet : ExportMap → String → Option ExportEntry
  | [], _ => none
  | (k', v) :: rest, k => if k' = k then some v else mapGet rest k

/-- Dict assignment on the exported mapping (update in place, else append). -/
def mapSet : ExportMap → String → ExportEntry → ExportMap
  | [], k, v => [(k, v)]
  | (k', v') :: rest, k, v =>
    if k' = k then (k, v) :: rest else (k', v') :: mapSet rest k v

/-- What one session contributes: the `if unique_id and readable_id`
guard with Python truthiness (a `None` or empty extraction excludes the
session). -/
def contrib (conv : Session) : Option (String × String) :=
  match extractLastId "UNIQUE_ID:" conv, extractLastId "READABLE_ID:" conv with
  | some u, some r => if u ≠ "" ∧ r ≠ "" then some (u, r) else none
  | _, _ => none

/-- `len([m for m in conversation if m["role"] != "system"])`. -/
def countNonSystem (conv : Session) : Nat :=
  (conv.filter (fun m => m.role ≠ "system")).length

/-- One iteration of the `export_mapping` loop. -/
def exportStep (m : ExportMap) (kc : String × Session) : ExportMap :=
  match contrib kc.2 with
  | some ur => mapSet m ur.2 ⟨ur.1, kc.1, countNonSystem kc.2⟩
  | none => m

/-- `export_mapping` (lines 1040-1063). -/
def export_mapping (store : Store) : ExportMap := store.foldl exportStep []

/-! ## Store lemmas -/

theorem storeGet_storeSet_self (s : Store) (k : String) (v : Session) :
    storeGet (storeSet s k v) k = some v := by
  induction s with
  | nil => simp [storeSet, storeGet]
  | cons p rest ih =>
    obtain ⟨k', v'⟩ := p
    by_cases h : k' = k <;> simp [storeSet, storeGet, h, ih]

theorem storeGet_storeSet_ne (s : Store) (k k' : String) (v : Session) (h : k ≠ k') :
    storeGet (storeSet s k v) k' = storeGet s k' := by
  induction s with
  | nil => simp [storeSet, storeGet, h]
  | cons p rest ih =>
    obtain ⟨k0, v0⟩ := p
    by_cases h0 : k0 = k
    · subst h0
      simp [storeSet, storeGet, h]
    · simp [storeSet, storeGet, h0, ih]

/-! ## C1: idempotence of the get-or-create operation -/

/-- C1: for every session key `k` and store state, running the
get-or-create operation exercised by POST /start_interview twice in
succession with the same key (whatever the time and randomness draws of
each call) yields a session whose turn count after the second call
equals the turn count after the first call — the seeding happens only
when the key is absent, so there is no duplicate seeding. -/
theorem C1_getOrCreate_idempotent_turn_count
    (s : Store) (k ts1 r1 ts2 r2 : String) :
    sessionTurnCount (getOrCreateStart (getOrCreateStart s k ts1 r1) k ts2 r2) k =
      sessionTurnCount (getOrCreateStart s k ts1 r1) k := by
  cases h : storeGet s k with
  | some v => simp [getOrCreateStart, h]
  | none => simp [getOrCreateStart, h, storeGet_storeSet_self]

/-! ## C4: /get_unique_id for an unknown user_id -/

/-- C4 counterexample: for the empty store and an unknown `user_id`,
`get_unique_id` answers with HTTP status 400, not the claimed 404. -/
theorem C4_counterexample_status_400 :
    (get_unique_id [] "u").status = 400 ∧ ¬ (get_unique_id [] "u").status = 404 := by
  constructor <;> decide

/-- C4 (amended): for every store state and every `user_id` that has no
session in the store, POST /get_unique_id returns HTTP status 400 (not
the claimed 404) with a body containing an `error` field. -/
theorem C4_unknown_user_amended (s : Store) (u : String) (h : storeGet s u = none) :
    (get_unique_id s u).status = 400 ∧ hasErrorField (get_unique_id s u).body = true := by
  unfold get_unique_id
  rw [h]
  exact ⟨rfl, rfl⟩

/-- C4 witness: the amended theorem applied to the empty store. -/
theorem C4_unknown_user_witness :
    storeGet [] "u" = none ∧
      ((get_unique_id [] "u").status = 400 ∧
        hasErrorField (get_unique_id [] "u").body = true) :=
  ⟨rfl, C4_unknown_user_amended [] "u" rfl⟩

/-! ## Prefix lemmas for the identifier markers -/

theorem listStartsWith_self_append (l t : List Char) : listStartsWith l (l ++ t) = true := by
  induction l with
  | nil => rfl
  | cons c cs ih => simp [listStartsWith, ih]

theorem listStartsWith_append_of_true (p q t : List Char) (h : listStartsWith p q = true) :
    listStartsWith p (q ++ t) = true := by
  induction p generalizing q with
  | nil => rfl
  | cons x xs ih =>
    cases q with
    | nil => simp [listStartsWith] at h
    | cons y ys =>
      simp only [listStartsWith, Bool.and_eq_true, decide_eq_true_eq] at h
      simp [listStartsWith, h.1, ih ys h.2]

theorem listStartsWith_false_of_ne_head (p c : Char) (ps cs : List Char) (h : p ≠ c) :
    listStartsWith (p :: ps) (c :: cs) = false := by
  simp [listStartsWith, h]

theorem pyStartswith_prefix_append (q u p : String) (h : pyStartswith q p = true) :
    pyStartswith (q ++ u) p = true := by
  unfold pyStartswith at *
  rw [String.data_append]
  exact listStartsWith_append_of_true _ _ _ h

theorem pyStartswith_UID_append (u : String) :
    pyStartswith ("UNIQUE_ID: " ++ u) "UNIQUE_ID:" = true :=
  pyStartswith_prefix_append _ _ _ (by decide)

theorem pyStartswith_RID_append (u : String) :
    pyStartswith ("READABLE_ID: " ++ u) "READABLE_ID:" = true :=
  pyStartswith_prefix_append _ _ _ (by decide)

theorem pyStartswith_UID_not_RID (u : String) :
    pyStartswith ("UNIQUE_ID: " ++ u) "READABLE_ID:" = false := by
  unfold pyStartswith
  rw [String.data_append]
  have h1 : "UNIQUE_ID: ".data ++ u.data = 'U' :: ("NIQUE_ID: ".data ++ u.data) := rfl
  rw [h1]
  exact listStartsWith_false_of_ne_head _ _ _ _ (by decide)

theorem pyStartswith_RID_not_UID (u : String) :
    pyStartswith ("READABLE_ID: " ++ u) "UNIQUE_ID:" = false := by
  unfold pyStartswith
  rw [String.data_append]
  have h1 : "READABLE_ID: ".data ++ u.data = 'R' :: ("EADABLE_ID: ".data ++ u.data) := rfl
  rw [h1]
  exact listStartsWith_false_of_ne_head _ _ _ _ (by decide)

/-! ## C10: /get_unique_id on an existing session -/

/-- A system turn carrying the readable marker (the scan's condition). -/
def isReadableTurn (t : Turn) : Bool :=
  t.role = "system" && pyStartswith t.content "READABLE_ID:"

theorem findReadableTurn_eq_none (conv : Session)
    (h : ∀ t ∈ conv, isReadableTurn t = false) : findReadableTurn conv = none := by
  induction conv with
  | nil => rfl
  | cons t rest ih =>
    have ht := h t (by simp)
    unfold isReadableTurn at ht
    unfold findReadableTurn
    rw [ht]
    exact ih (fun t' h' => h t' (by simp [h']))

theorem findReadableTurn_first (pre : Session) (t : Turn) (post : Session)
    (hpre : ∀ t' ∈ pre, isReadableTurn t' = false) (ht : isReadableTurn t = true) :
    findReadableTurn (pre ++ t :: post) = some t := by
  induction pre with
  | nil =>
    unfold isReadableTurn at ht
    simp only [List.nil_append]
    unfold findReadableTurn
    rw [ht]
    rfl
  | cons p ps ih =>
    have hp := hpre p (by simp)
    unfold isReadableTurn at hp
    simp only [List.cons_append]
    unfold findReadableTurn
    rw [hp]
    exact ih (fun t' h' => hpre t' (by simp [h']))

/-- C10 counterexample: the session of `"u"` contains a system turn
whose content starts with `"READABLE_ID:"` (the marker with an empty
payload), yet `get_unique_id` answers 404 instead of the claimed HTTP
success carrying the content after the marker. -/
theorem C10_counterexample :
    storeGet [("u", [⟨"system", "READABLE_ID:"⟩])] "u" = some [⟨"system", "READABLE_ID:"⟩] ∧
    isReadableTurn ⟨"system", "READABLE_ID:"⟩ = true ∧
    (get_unique_id [("u", [⟨"system", "READABLE_ID:"⟩])] "u").status = 404 := by
  refine ⟨rfl, by decide, by decide⟩

/-- C10 (amended): for a `user_id` whose session exists, if no system
turn's content starts with `"READABLE_ID:"`, /get_unique_id returns 404
with an error body; when such turns are present the *first* one is
taken, every occurrence of `"READABLE_ID:"` is removed from its content
and surrounding whitespace stripped, and the result is returned as
`unique_id` with HTTP success if it is nonempty — otherwise 404 with an
error body. -/
theorem C10_get_unique_id_amended (s : Store) (u : String) (conv : Session)
    (h : storeGet s u = some conv) :
    ((∀ t ∈ conv, isReadableTurn t = false) →
       (get_unique_id s u).status = 404 ∧ hasErrorField (get_unique_id s u).body = true) ∧
    (∀ pre t post, conv = pre ++ t :: post → isReadableTurn t = true →
       (∀ t' ∈ pre, isReadableTurn t' = false) →
       ((pyStrip (pyReplace t.content "READABLE_ID:" "") = "" →
           (get_unique_id s u).status = 404 ∧ hasErrorField (get_unique_id s u).body = true) ∧
        (pyStrip (pyReplace t.content "READABLE_ID:" "") ≠ "" →
           get_unique_id s u =
             ⟨200, Json.obj
               [("unique_id", Json.str (pyStrip (pyReplace t.content "READABLE_ID:" "")))]⟩))) := by
  constructor
  · intro hnone
    unfold get_unique_id
    rw [h]
    dsimp only
    rw [findReadableTurn_eq_none conv hnone]
    exact ⟨rfl, rfl⟩
  · intro pre t post hconv ht hpre
    unfold get_unique_id
    rw [h, hconv]
    dsimp only
    rw [findReadableTurn_first pre t post hpre ht]
    dsimp only
    constructor
    · intro hempty
      rw [hempty, if_neg (by simp)]
      exact ⟨rfl, rfl⟩
    · intro hne
      rw [if_pos hne]

/-- C10 witness: a session whose first readable-id turn carries payload
`"abc"` makes /get_unique_id answer 200 with `unique_id = "abc"`. -/
theorem C10_get_unique_id_witness :
    storeGet [("u", [⟨"system", "READABLE_ID: abc"⟩])] "u" =
      some [⟨"system", "READABLE_ID: abc"⟩] ∧
    get_unique_id [("u", [⟨"system", "READABLE_ID: abc"⟩])] "u" =
      ⟨200, Json.obj [("unique_id", Json.str "abc")]⟩ := by
  refine ⟨rfl, ?_⟩
  have h :=
    ((C10_get_unique_id_amended [("u", [⟨"system", "READABLE_ID: abc"⟩])] "u"
        [⟨"system", "READABLE_ID: abc"⟩] rfl).2
      [] ⟨"system", "READABLE_ID: abc"⟩ [] rfl (by decide) (by intro t' h'; cases h')).2
  have hval : pyStrip (pyReplace (Turn.content ⟨"system", "READABLE_ID: abc"⟩)
      "READABLE_ID:" "") = "abc" := by decide
  rw [hval] at h
  exact h (by decide)

/-! ## Effect of the endpoints on an existing session -/

theorem start_interview_existing (s : Store) (k ts r : String) (conv : Session)
    (h : storeGet s k = some conv) :
    storeGet (start_interview s k ts r).2 k =
      some (conv ++ [⟨"assistant", welcome_message_json⟩]) := by
  unfold start_interview getOrCreateStart
  simp [h, storeGet_storeSet_self]

theorem start_interview_new (s : Store) (k ts r : String)
    (h : storeGet s k = none) :
    storeGet (start_interview s k ts r).2 k =
      some [⟨"system", SYSTEM_PROMPT⟩,
            ⟨"system", "UNIQUE_ID: " ++ (generate_unique_id ts r).2⟩,
            ⟨"system", "READABLE_ID: " ++ (generate_unique_id ts r).1⟩,
            ⟨"assistant", welcome_message_json⟩] := by
  unfold start_interview getOrCreateStart
  simp [h, storeGet_storeSet_self]

theorem chat_store_existing (s : Store) (k msg reply : String) (conv : Session)
    (h : storeGet s k = some conv) :
    storeGet (chat s k msg reply).2 k =
      some (conv ++ [⟨"user", msg⟩, ⟨"assistant", reply⟩]) := by
  unfold chat
  cases hj : jsonLoads reply <;> simp [h, hj, storeGet_storeSet_self]

theorem chat_store_new (s : Store) (k msg reply : String)
    (h : storeGet s k = none) :
    storeGet (chat s k msg reply).2 k =
      some [⟨"system", SYSTEM_PROMPT⟩, ⟨"user", msg⟩, ⟨"assistant", reply⟩] := by
  unfold chat
  cases hj : jsonLoads reply <;> simp [h, hj, storeGet_storeSet_self]

/-! ## C3: the two identifier turns -/

/-- Number of system turns whose content starts with `marker`. -/
def countMarkerTurns (marker : String) (conv : Session) : Nat :=
  (conv.filter (fun t => t.role = "system" && pyStartswith t.content marker)).length

theorem countMarkerTurns_append_nonsystem (marker : String) (conv : Session) (ts : List Turn)
    (h : ∀ t ∈ ts, t.role ≠ "system") :
    countMarkerTurns marker (conv ++ ts) = countMarkerTurns marker conv := by
  unfold countMarkerTurns
  rw [List.filter_append]
  have hnil : ts.filter (fun t => t.role = "system" && pyStartswith t.content marker) = [] := by
    rw [List.filter_eq_nil_iff]
    intro t ht
    simp [h t ht]
  rw [hnil, List.append_nil]

/-- C3 counterexample: POST /chat with an unknown key creates a session
(here, from the empty store), and that session contains neither the
internal-token turn nor the readable-token turn — refuting "no
operation on any path creates a session without them". -/
theorem C3_counterexample :
    (storeGet (chat [] "u" "hi" "ok").2 "u").isSome = true ∧
    countMarkerTurns "UNIQUE_ID:" ((storeGet (chat [] "u" "hi" "ok").2 "u").getD []) = 0 ∧
    countMarkerTurns "READABLE_ID:" ((storeGet (chat [] "u" "hi" "ok").2 "u").getD []) = 0 := by
  refine ⟨by decide, by decide, by decide⟩

/-- C3 (amended): a session created by POST /start_interview contains
each identifier system turn exactly once, inserted at creation; further
/start_interview and /chat calls on the same key never insert either a
second time.  (The /chat path, however, creates sessions without them —
see the counterexample.) -/
theorem C3_identifier_turns_amended (s : Store) (k ts1 r1 ts2 r2 msg reply : String)
    (h : storeGet s k = none) :
    (countMarkerTurns "UNIQUE_ID:" ((storeGet (start_interview s k ts1 r1).2 k).getD []) = 1 ∧
     countMarkerTurns "READABLE_ID:" ((storeGet (start_interview s k ts1 r1).2 k).getD []) = 1) ∧
    (countMarkerTurns "UNIQUE_ID:"
        ((storeGet (start_interview (start_interview s k ts1 r1).2 k ts2 r2).2 k).getD []) = 1 ∧
     countMarkerTurns "READABLE_ID:"
        ((storeGet (start_interview (start_interview s k ts1 r1).2 k ts2 r2).2 k).getD []) = 1) ∧
    (countMarkerTurns "UNIQUE_ID:"
        ((storeGet (chat (start_interview s k ts1 r1).2 k msg reply).2 k).getD []) = 1 ∧
     countMarkerTurns "READABLE_ID:"
        ((storeGet (chat (start_interview s k ts1 r1).2 k msg reply).2 k).getD []) = 1) := by
  have h1 := start_interview_new s k ts1 r1 h
  set conv1 : Session :=
    [⟨"system", SYSTEM_PROMPT⟩,
     ⟨"system", "UNIQUE_ID: " ++ (generate_unique_id ts1 r1).2⟩,
     ⟨"system", "READABLE_ID: " ++ (generate_unique_id ts1 r1).1⟩,
     ⟨"assistant", welcome_message_json⟩] with hconv1
  have hcu : countMarkerTurns "UNIQUE_ID:" conv1 = 1 := by
    unfold countMarkerTurns
    rw [hconv1]
    simp [List.filter, pyStartswith_UID_append, pyStartswith_RID_not_UID,
      (show pyStartswith SYSTEM_PROMPT "UNIQUE_ID:" = false by decide)]
  have hcr : countMarkerTurns "READABLE_ID:" conv1 = 1 := by
    unfold countMarkerTurns
    rw [hconv1]
    simp [List.filter, pyStartswith_RID_append, pyStartswith_UID_not_RID,
      (show pyStartswith SYSTEM_PROMPT "READABLE_ID:" = false by decide)]
  refine ⟨⟨?_, ?_⟩, ⟨?_, ?_⟩, ⟨?_, ?_⟩⟩
  · rw [h1]; exact hcu
  · rw [h1]; exact hcr
  · rw [start_interview_existing _ _ _ _ _ h1]
    dsimp only [Option.getD]
    rw [countMarkerTurns_append_nonsystem _ _ _ (by intro t ht; simp at ht; simp [ht])]
    exact hcu
  · rw [start_interview_existing _ _ _ _ _ h1]
    dsimp only [Option.getD]
    rw [countMarkerTurns_append_nonsystem _ _ _ (by intro t ht; simp at ht; simp [ht])]
    exact hcr
  · rw [chat_store_existing _ _ _ _ _ h1]
    dsimp only [Option.getD]
    rw [countMarkerTurns_append_nonsystem _ _ _ (by intro t ht; simp at ht; rcases ht with h' | h' <;> simp [h'])]
    exact hcu
  · rw [chat_store_existing _ _ _ _ _ h1]
    dsimp only [Option.getD]
    rw [countMarkerTurns_append_nonsystem _ _ _ (by intro t ht; simp at ht; rcases ht with h' | h' <;> simp [h'])]
    exact hcr

/-- C3 witness: the amended theorem applied to the empty store. -/
theorem C3_identifier_turns_witness :
    storeGet [] "u" = none ∧
    countMarkerTurns "UNIQUE_ID:"
      ((storeGet (start_interview [] "u" "20240101123456" "12345678-1234-1234-1234-123456789012").2
          "u").getD []) = 1 :=
  ⟨rfl,
   (C3_identifier_turns_amended [] "u" "20240101123456" "12345678-1234-1234-1234-123456789012"
      "t" "r" "m" "x" rfl).1.1⟩

/-! ## C8: the transcript submitted for scoring -/

/-- The labeling the claim describes: "Interviewer" for assistant turns,
"Candidate" for user turns (and nothing specified for other roles). -/
def specLabel (role : String) : String :=
  if role = "assistant" then "Interviewer"
  else if role = "user" then "Candidate"
  else ""

/-- C8: for every session whose turns use the three permitted roles, the
transcript text `score_interview_endpoint` submits for scoring excludes
all system turns and is the in-order concatenation of the remaining
turns, each rendered as `<label>: <content>` followed by a blank line,
with label "Interviewer" for assistant turns and "Candidate" for user
turns. -/
theorem C8_render_transcript (conv : Session)
    (h : ∀ t ∈ conv, t.role = "system" ∨ t.role = "user" ∨ t.role = "assistant") :
    renderTranscript conv =
      ((conv.filter (fun t => t.role ≠ "system")).map
        (fun t => specLabel t.role ++ ": " ++ t.content ++ "\n\n")).foldr (· ++ ·) "" := by
  induction conv with
  | nil => rfl
  | cons t rest ih =>
    have hrest := ih (fun t' ht' => h t' (by simp [ht']))
    have hr := h t (by simp)
    unfold renderTranscript
    rcases hr with h' | h' | h' <;>
      simp [h', List.filter_cons, specLabel, hrest]

/-- C8 witness: a concrete mixed transcript. -/
theorem C8_render_transcript_witness :
    (∀ t ∈ ([⟨"system", "p"⟩, ⟨"user", "hi"⟩, ⟨"assistant", "yo"⟩] : Session),
        t.role = "system" ∨ t.role = "user" ∨ t.role = "assistant") ∧
    renderTranscript [⟨"system", "p"⟩, ⟨"user", "hi"⟩, ⟨"assistant", "yo"⟩] =
      ((([⟨"system", "p"⟩, ⟨"user", "hi"⟩, ⟨"assistant", "yo"⟩] : Session).filter
          (fun t => t.role ≠ "system")).map
        (fun t => specLabel t.role ++ ": " ++ t.content ++ "\n\n")).foldr (· ++ ·) "" :=
  ⟨by decide, C8_render_transcript _ (by decide)⟩

/-! ## C9: shape of the generated identifier pair -/

/-- The deterministic derivation of the readable id from the internal
id's two components (timestamp and random slice). -/
def deriveReadable (timestampComponent randomSlice : String) : String :=
  pySliceLast 6 timestampComponent ++ "-" ++ pySliceTo 6 randomSlice

/-- C9: for a 14-character `strftime("%Y%m%d%H%M%S")` timestamp and a
uuid4 string (36 characters; only `8 ≤ length` is needed), the internal
id is the timestamp joined by `"-"` to the 8-character slice of the
random token, the readable id is the last 6 characters of the timestamp
joined by `"-"` to the first 6 characters of that slice, the internal
id's length (23) is at least the readable id's (13), and the readable id
is derived deterministically from the internal id's components. -/
theorem C9_generate_unique_id_spec (ts uuidStr : String)
    (hts : ts.length = 14) (hu : 8 ≤ uuidStr.length) :
    (generate_unique_id ts uuidStr).2 = ts ++ "-" ++ pySliceTo 8 uuidStr ∧
    (generate_unique_id ts uuidStr).1 =
      pySliceLast 6 ts ++ "-" ++ pySliceTo 6 (pySliceTo 8 uuidStr) ∧
    (generate_unique_id ts uuidStr).1.length ≤ (generate_unique_id ts uuidStr).2.length ∧
    (generate_unique_id ts uuidStr).1 = deriveReadable ts (pySliceTo 8 uuidStr) := by
  refine ⟨rfl, rfl, ?_, rfl⟩
  have htsd : ts.data.length = 14 := hts
  have hud : 8 ≤ uuidStr.data.length := hu
  have h1 : (pySliceTo 8 uuidStr).length = 8 := by
    simp only [pySliceTo, String.length]
    rw [List.length_take]
    omega
  have h2 : (pySliceTo 6 (pySliceTo 8 uuidStr)).length = 6 := by
    simp only [pySliceTo, String.length]
    rw [List.length_take, List.length_take]
    omega
  have h3 : (pySliceLast 6 ts).length = 6 := by
    simp only [pySliceLast, String.length]
    rw [List.length_reverse, List.length_take, List.length_reverse]
    omega
  have hd : ("-" : String).length = 1 := rfl
  simp only [generate_unique_id, String.length_append, h1, h2, h3, hd, hts]
  omega

/-- C9 witness: a concrete timestamp and uuid4 draw. -/
theorem C9_generate_unique_id_witness :
    ("20240101123456" : String).length = 14 ∧
    8 ≤ ("12345678-1234-1234-1234-123456789012" : String).length ∧
    (generate_unique_id "20240101123456" "12345678-1234-1234-1234-123456789012").1.length ≤
      (generate_unique_id "20240101123456" "12345678-1234-1234-1234-123456789012").2.length :=
  ⟨rfl, by decide,
   (C9_generate_unique_id_spec "20240101123456" "12345678-1234-1234-1234-123456789012"
      rfl (by decide)).2.2.1⟩

/-! ## C2 and C5: /chat with a stubbed completion API -/

/-- The exact stub text of C2. -/
def stubReplyC2 : String :=
  "\x7b\"response\":\"Hi\",\"question_asked\":0,\"is_clarification\":false\x7d"

theorem jsonLoads_stubReplyC2 :
    jsonLoads stubReplyC2 =
      some (Json.obj [("response", Json.str "Hi"), ("question_asked", Json.num 0),
                      ("is_clarification", Json.bool false)]) := by
  rfl

/-- C2: for every session key with a session in the store and every user
message, if the completion API returns exactly
`{"response":"Hi","question_asked":0,"is_clarification":false}`, then
POST /chat returns exactly that structured reply with HTTP success, and
the transcript grows by exactly two turns: the user turn carrying the
message followed by the assistant turn carrying the returned text. -/
theorem C2_chat_structured_reply (s : Store) (k msg : String) (conv : Session)
    (h : storeGet s k = some conv) :
    (chat s k msg stubReplyC2).1 =
      ⟨200, Json.obj [("response", Json.str "Hi"), ("question_asked", Json.num 0),
                      ("is_clarification", Json.bool false)]⟩ ∧
    storeGet (chat s k msg stubReplyC2).2 k =
      some (conv ++ [⟨"user", msg⟩, ⟨"assistant", stubReplyC2⟩]) := by
  refine ⟨?_, chat_store_existing s k msg stubReplyC2 conv h⟩
  simp [chat, h, jsonLoads_stubReplyC2]

/-- C2 witness: a store holding one freshly-seeded session. -/
theorem C2_chat_structured_reply_witness :
    storeGet [("u", [⟨"system", SYSTEM_PROMPT⟩])] "u" = some [⟨"system", SYSTEM_PROMPT⟩] ∧
    ((chat [("u", [⟨"system", SYSTEM_PROMPT⟩])] "u" "hello" stubReplyC2).1 =
        ⟨200, Json.obj [("response", Json.str "Hi"), ("question_asked", Json.num 0),
                        ("is_clarification", Json.bool false)]⟩ ∧
      storeGet (chat [("u", [⟨"system", SYSTEM_PROMPT⟩])] "u" "hello" stubReplyC2).2 "u" =
        some ([⟨"system", SYSTEM_PROMPT⟩] ++ [⟨"user", "hello"⟩, ⟨"assistant", stubReplyC2⟩])) :=
  ⟨rfl, C2_chat_structured_reply [("u", [⟨"system", SYSTEM_PROMPT⟩])] "u" "hello"
      [⟨"system", SYSTEM_PROMPT⟩] rfl⟩

/-- C5: for every session key and user message, if the completion API
returns text `json.loads` cannot parse, POST /chat answers with HTTP
success carrying the fallback structured reply
`{response: raw text, question_asked: null, is_clarification: false}`,
and the raw text is still appended to the transcript as an assistant
turn (after the user turn). -/
theorem C5_chat_parse_failure (s : Store) (k msg reply : String)
    (h : jsonLoads reply = none) :
    (chat s k msg reply).1 =
      ⟨200, Json.obj [("response", Json.str reply), ("question_asked", Json.null),
                      ("is_clarification", Json.bool false)]⟩ ∧
    storeGet (chat s k msg reply).2 k =
      some ((storeGet s k).getD [⟨"system", SYSTEM_PROMPT⟩] ++
            [⟨"user", msg⟩, ⟨"assistant", reply⟩]) := by
  constructor
  · simp [chat, h]
  · cases hk : storeGet s k with
    | some conv =>
      rw [chat_store_existing s k msg reply conv hk]
      rfl
    | none =>
      rw [chat_store_new s k msg reply hk]
      rfl

/-- C5 witness: the non-JSON stub `"hello"` on the empty store. -/
theorem C5_chat_parse_failure_witness :
    jsonLoads "hello" = none ∧
    ((chat [] "u" "msg" "hello").1 =
        ⟨200, Json.obj [("response", Json.str "hello"), ("question_asked", Json.null),
                        ("is_clarification", Json.bool false)]⟩ ∧
      storeGet (chat [] "u" "msg" "hello").2 "u" =
        some ((storeGet [] "u").getD [⟨"system", SYSTEM_PROMPT⟩] ++
              [⟨"user", "msg"⟩, ⟨"assistant", "hello"⟩])) :=
  ⟨rfl, C5_chat_parse_failure [] "u" "msg" "hello" rfl⟩

/-! ## C6: /export_mapping -/

/-- Does the session contain a system turn starting with `marker`
(the claim's "contains the identifier system turn")? -/
def hasIdTurn (marker : String) (conv : Session) : Bool :=
  conv.any (fun t => t.role = "system" && pyStartswith t.content marker)

/-- Two sessions that both carry both identifier turns, with the same
readable id. -/
def c6ConvA : Session := [⟨"system", "UNIQUE_ID: u1"⟩, ⟨"system", "READABLE_ID: r"⟩]

/-- Second session of the C6 counterexample store. -/
def c6ConvB : Session := [⟨"system", "UNIQUE_ID: u2"⟩, ⟨"system", "READABLE_ID: r"⟩]

/-- C6 counterexample: both sessions of the store contain both
identifier system turns, yet the exported mapping holds a single entry
— the one for session "b" — so the claimed "entry for exactly those
sessions that contain both identifier system turns" fails for session
"a", whose readable id was overwritten. -/
theorem C6_counterexample :
    hasIdTurn "UNIQUE_ID:" c6ConvA = true ∧ hasIdTurn "READABLE_ID:" c6ConvA = true ∧
    hasIdTurn "UNIQUE_ID:" c6ConvB = true ∧ hasIdTurn "READABLE_ID:" c6ConvB = true ∧
    export_mapping [("a", c6ConvA), ("b", c6ConvB)] = [("r", ⟨"u2", "b", 0⟩)] ∧
    (export_mapping [("a", c6ConvA), ("b", c6ConvB)]).all
      (fun p => !(p.2.user_id = "a")) = true := by
  refine ⟨by decide, by decide, by decide, by decide, by decide, by decide⟩

theorem mapGet_mapSet_self (m : ExportMap) (k : String) (v : ExportEntry) :
    mapGet (mapSet m k v) k = some v := by
  induction m with
  | nil => simp [mapSet, mapGet]
  | cons p rest ih =>
    obtain ⟨k', v'⟩ := p
    by_cases h : k' = k <;> simp [mapSet, mapGet, h, ih]

theorem mapGet_mapSet_ne (m : ExportMap) (k k' : String) (v : ExportEntry) (h : k ≠ k') :
    mapGet (mapSet m k v) k' = mapGet m k' := by
  induction m with
  | nil => simp [mapSet, mapGet, h]
  | cons p rest ih =>
    obtain ⟨k0, v0⟩ := p
    by_cases h0 : k0 = k
    · subst h0
      simp [mapSet, mapGet, h]
    · simp [mapSet, mapGet, h0, ih]

theorem mem_mapSet (m : ExportMap) (k : String) (v : ExportEntry) (p : String × ExportEntry)
    (h : p ∈ mapSet m k v) : p = (k, v) ∨ p ∈ m := by
  induction m with
  | nil => simpa [mapSet] using h
  | cons q rest ih =>
    obtain ⟨k0, v0⟩ := q
    by_cases h0 : k0 = k
    · subst h0
      simp only [mapSet, if_pos rfl] at h
      rcases List.mem_cons.mp h with h' | h'
      · exact Or.inl h'
      · exact Or.inr (List.mem_cons_of_mem _ h')
    · simp only [mapSet, if_neg h0] at h
      rcases List.mem_cons.mp h with h' | h'
      · exact Or.inr (h' ▸ List.mem_cons_self _ _)
      · rcases ih h' with h'' | h''
        · exact Or.inl h''
        · exact Or.inr (List.mem_cons_of_mem _ h'')

/-- Every entry of the folded mapping either was already in the
accumulator or records the data of some contributing session. -/
theorem export_foldl_origin (l : List (String × Session)) (m0 : ExportMap)
    (p : String × ExportEntry) (hp : p ∈ l.foldl exportStep m0) :
    p ∈ m0 ∨ ∃ kc ∈ l, ∃ u, contrib kc.2 = some (u, p.1) ∧
      p.2 = ⟨u, kc.1, countNonSystem kc.2⟩ := by
  induction l generalizing m0 with
  | nil => exact Or.inl hp
  | cons kc rest ih =>
    rw [List.foldl_cons] at hp
    rcases ih (exportStep m0 kc) hp with h1 | h1
    · unfold exportStep at h1
      cases hc : contrib kc.2 with
      | none => rw [hc] at h1; exact Or.inl h1
      | some ur =>
        rw [hc] at h1
        rcases mem_mapSet _ _ _ _ h1 with h2 | h2
        · refine Or.inr ⟨kc, List.mem_cons_self _ _, ur.1, ?_, ?_⟩
          · rw [hc, h2]
          · rw [h2]
        · exact Or.inl h2
    · obtain ⟨kc', hkc', u, hu, hv⟩ := h1
      exact Or.inr ⟨kc', List.mem_cons_of_mem _ hkc', u, hu, hv⟩

/-- Sessions of the tail that never contribute readable id `r` leave the
entry at `r` unchanged. -/
theorem export_foldl_no_r (l : List (String × Session)) (m0 : ExportMap) (r : String)
    (h : ∀ p ∈ l, ∀ u', contrib p.2 ≠ some (u', r)) :
    mapGet (l.foldl exportStep m0) r = mapGet m0 r := by
  induction l generalizing m0 with
  | nil => rfl
  | cons kc rest ih =>
    rw [List.foldl_cons]
    rw [ih (exportStep m0 kc) (fun p hp => h p (List.mem_cons_of_mem _ hp))]
    unfold exportStep
    cases hc : contrib kc.2 with
    | none => rfl
    | some ur =>
      obtain ⟨u1, r1⟩ := ur
      have hne : r1 ≠ r := by
        intro hr
        subst hr
        exact h kc (List.mem_cons_self _ _) u1 hc
      exact mapGet_mapSet_ne _ _ _ _ hne

/-- With pairwise-distinct keys (the dict invariant), a key determines
its session. -/
theorem keys_nodup_mem_unique (store : Store) (hnd : (store.map Prod.fst).Nodup)
    (k : String) (a b : Session) (ha : (k, a) ∈ store) (hb : (k, b) ∈ store) : a = b := by
  induction store with
  | nil => cases ha
  | cons q rest ih =>
    obtain ⟨k0, v0⟩ := q
    rw [List.map_cons, List.nodup_cons] at hnd
    rcases List.mem_cons.mp ha with ha' | ha' <;> rcases List.mem_cons.mp hb with hb' | hb'
    · rw [Prod.mk.injEq] at ha' hb'
      rw [ha'.2, hb'.2]
    · exfalso
      rw [Prod.mk.injEq] at ha'
      apply hnd.1
      rw [← ha'.1]
      exact List.mem_map.mpr ⟨(k, b), hb', rfl⟩
    · exfalso
      rw [Prod.mk.injEq] at hb'
      apply hnd.1
      rw [← hb'.1]
      exact List.mem_map.mpr ⟨(k, a), ha', rfl⟩
    · exact ih hnd.2 ha' hb'

/-- C6 (amended): `export_mapping` emits, keyed by readable id, an entry
`{internal id, session key, non-system turn count}` for the sessions the
`if unique_id and readable_id` guard admits — those whose last
`UNIQUE_ID:`/`READABLE_ID:` system turns both carry payloads that strip
to nonempty strings.  A session missing either identifier turn (or
whose payload strips to empty) is silently excluded — no entry of the
result carries its key, and nothing is reported as an error; and when a
session's readable id is not contributed by any later session, the
mapping at that readable id is exactly that session's entry (on a
collision the last contributor in store order wins). -/
theorem C6_export_mapping_amended (store : Store) (hnd : (store.map Prod.fst).Nodup) :
    (∀ k conv, (k, conv) ∈ store → contrib conv = none →
        ∀ p ∈ export_mapping store, p.2.user_id ≠ k) ∧
    (∀ pre k conv post u r, store = pre ++ (k, conv) :: post →
        contrib conv = some (u, r) →
        (∀ p ∈ post, ∀ u', contrib p.2 ≠ some (u', r)) →
        mapGet (export_mapping store) r = some ⟨u, k, countNonSystem conv⟩) := by
  constructor
  · intro k conv hk hnone p hp huid
    rcases export_foldl_origin store [] p hp with h1 | h1
    · cases h1
    · obtain ⟨kc, hkc, u, hu, hv⟩ := h1
      have hkey : kc.1 = k := by rw [hv] at huid; exact huid
      have : kc.2 = conv := by
        refine keys_nodup_mem_unique store hnd k kc.2 conv ?_ hk
        rw [← hkey]
        exact hkc
      rw [this, hnone] at hu
      cases hu
  · intro pre k conv post u r hsplit hc hpost
    unfold export_mapping
    rw [hsplit, List.foldl_append, List.foldl_cons]
    rw [export_foldl_no_r post _ r hpost]
    unfold exportStep
    rw [hc]
    exact mapGet_mapSet_self _ _ _

/-- C6 witness: a one-session store with both identifier turns and one
user turn exports exactly that session's entry. -/
theorem C6_export_mapping_witness :
    ((([("a", [⟨"system", "UNIQUE_ID: u1"⟩, ⟨"system", "READABLE_ID: r"⟩, ⟨"user", "hi"⟩])] :
        Store).map Prod.fst).Nodup ∧
      contrib [⟨"system", "UNIQUE_ID: u1"⟩, ⟨"system", "READABLE_ID: r"⟩, ⟨"user", "hi"⟩] =
        some ("u1", "r")) ∧
    mapGet (export_mapping
        [("a", [⟨"system", "UNIQUE_ID: u1"⟩, ⟨"system", "READABLE_ID: r"⟩, ⟨"user", "hi"⟩])])
      "r" = some ⟨"u1", "a", 1⟩ :=
  ⟨⟨by decide, by decide⟩,
   (C6_export_mapping_amended
      [("a", [⟨"system", "UNIQUE_ID: u1"⟩, ⟨"system", "READABLE_ID: r"⟩, ⟨"user", "hi"⟩])]
      (by decide)).2
     [] "a" [⟨"system", "UNIQUE_ID: u1"⟩, ⟨"system", "READABLE_ID: r"⟩, ⟨"user", "hi"⟩] []
     "u1" "r" rfl (by decide) (by intro p hp; cases hp)⟩

/-! ## C7: save/load round-trip — string escaping -/

theorem char_valid_nat (c : Char) :
    c.toNat < 0xd800 ∨ (0xdfff < c.toNat ∧ c.toNat < 0x110000) := by
  have h := c.valid
  unfold UInt32.isValidChar Nat.isValidChar at h
  exact h

theorem hexVal_toHexDigit (k : Nat) (h : k < 16) : hexVal (toHexDigit k) = some k := by
  have H : ∀ k : Fin 16, hexVal (toHexDigit k.val) = some k.val := by decide
  exact H ⟨k, h⟩

theorem skipWs_not (c : Char) (l : List Char) (h : jsonWs c = false) :
    skipWs (c :: l) = c :: l := by
  simp [skipWs, h]

theorem skipWs_ws (c : Char) (l : List Char) (h : jsonWs c = true) :
    skipWs (c :: l) = skipWs l := by
  simp [skipWs, h]

theorem skipWs_spaces (n : Nat) (l : List Char) : skipWs (spaces n ++ l) = skipWs l := by
  induction n with
  | zero => rfl
  | succ m ih =>
    rw [spaces, List.replicate_succ, List.cons_append, skipWs_ws _ _ (by decide)]
    exact ih

/-- Every escape produced by `escapeChar` has at least one character. -/
theorem escapeChar_length_pos (c : Char) : 1 ≤ (escapeChar c).length := by
  unfold escapeChar hex4
  split_ifs <;> simp

/-- The escaped text is at least as long as the original. -/
theorem escList_length_ge (l : List Char) : l.length ≤ (escList l).length := by
  induction l with
  | nil => simp [escList]
  | cons c cs ih =>
    show cs.length + 1 ≤ (escapeChar c ++ escList cs).length
    rw [List.length_append]
    have := escapeChar_length_pos c
    omega

/-- Decoding a `\uXXXX` escape outside the surrogate ranges. -/
theorem parseStringBody_u4 (f : Nat) (acc rest : List Char) (d1 d2 d3 d4 : Char)
    (a b c2 d : Nat) (h1 : hexVal d1 = some a) (h2 : hexVal d2 = some b)
    (h3 : hexVal d3 = some c2) (h4 : hexVal d4 = some d)
    (hns : ¬ (0xd800 ≤ a * 4096 + b * 256 + c2 * 16 + d ∧
              a * 4096 + b * 256 + c2 * 16 + d ≤ 0xdbff))
    (hns2 : ¬ (0xdc00 ≤ a * 4096 + b * 256 + c2 * 16 + d ∧
               a * 4096 + b * 256 + c2 * 16 + d ≤ 0xdfff)) :
    parseStringBody (f + 1) acc ('\\' :: 'u' :: d1 :: d2 :: d3 :: d4 :: rest) =
      parseStringBody f (Char.ofNat (a * 4096 + b * 256 + c2 * 16 + d) :: acc) rest := by
  conv_lhs => unfold parseStringBody
  rw [if_neg (by decide), if_pos rfl]
  dsimp only
  rw [if_neg (by decide), if_neg (by decide), if_neg (by decide), if_neg (by decide),
      if_neg (by decide), if_neg (by decide), if_neg (by decide), if_neg (by decide),
      if_pos rfl]
  rw [h1, h2, h3, h4]
  dsimp only
  rw [if_neg hns, if_neg hns2]

/-- Decoding a surrogate-pair escape. -/
theorem parseStringBody_surrogatePair (f : Nat) (acc rest : List Char)
    (d1 d2 d3 d4 e1 e2 e3 e4 : Char) (a b c2 d a2 b2 c3 d2v : Nat)
    (h1 : hexVal d1 = some a) (h2 : hexVal d2 = some b)
    (h3 : hexVal d3 = some c2) (h4 : hexVal d4 = some d)
    (h5 : hexVal e1 = some a2) (h6 : hexVal e2 = some b2)
    (h7 : hexVal e3 = some c3) (h8 : hexVal e4 = some d2v)
    (hhi : 0xd800 ≤ a * 4096 + b * 256 + c2 * 16 + d ∧
           a * 4096 + b * 256 + c2 * 16 + d ≤ 0xdbff)
    (hlo : 0xdc00 ≤ a2 * 4096 + b2 * 256 + c3 * 16 + d2v ∧
           a2 * 4096 + b2 * 256 + c3 * 16 + d2v ≤ 0xdfff) :
    parseStringBody (f + 1) acc
      ('\\' :: 'u' :: d1 :: d2 :: d3 :: d4 :: '\\' :: 'u' :: e1 :: e2 :: e3 :: e4 :: rest) =
      parseStringBody f
        (Char.ofNat (0x10000 + (a * 4096 + b * 256 + c2 * 16 + d - 0xd800) * 1024 +
           (a2 * 4096 + b2 * 256 + c3 * 16 + d2v - 0xdc00)) :: acc) rest := by
  conv_lhs => unfold parseStringBody
  rw [if_neg (by decide), if_pos rfl]
  dsimp only
  rw [if_neg (by decide), if_neg (by decide), if_neg (by decide), if_neg (by decide),
      if_neg (by decide), if_neg (by decide), if_neg (by decide), if_neg (by decide),
      if_pos rfl]
  rw [h1, h2, h3, h4]
  dsimp only
  rw [if_pos hhi]
  rw [if_pos (⟨rfl, rfl⟩ : ('\\' : Char) = '\\' ∧ ('u' : Char) = 'u')]
  rw [h5, h6, h7, h8]
  dsimp only
  rw [if_pos hlo]

/-- One escaped character is decoded back to that character. -/
theorem parseStringBody_escapeChar (c : Char) (acc rest : List Char) (f : Nat) :
    parseStringBody (f + 1) acc (escapeChar c ++ rest) = parseStringBody f (c :: acc) rest := by
  unfold escapeChar
  by_cases h1 : c = '\x22'
  · subst h1
    show parseStringBody (f + 1) acc ('\\' :: '\x22' :: rest) = parseStringBody f ('\x22' :: acc) rest
    conv_lhs => unfold parseStringBody
    rw [if_neg (by decide), if_pos rfl]
    dsimp only
    rw [if_pos rfl]
  rw [if_neg h1]
  by_cases h2 : c = '\\'
  · subst h2
    show parseStringBody (f + 1) acc ('\\' :: '\\' :: rest) = parseStringBody f ('\\' :: acc) rest
    conv_lhs => unfold parseStringBody
    rw [if_neg (by decide), if_pos rfl]
    dsimp only
    rw [if_neg (by decide), if_pos rfl]
  rw [if_neg h2]
  by_cases h3 : c = '\x08'
  · subst h3
    show parseStringBody (f + 1) acc ('\\' :: 'b' :: rest) = parseStringBody f ('\x08' :: acc) rest
    conv_lhs => unfold parseStringBody
    rw [if_neg (by decide), if_pos rfl]
    dsimp only
    rw [if_neg (by decide), if_neg (by decide), if_neg (by decide), if_pos rfl]
  rw [if_neg h3]
  by_cases h4 : c = '\x0c'
  · subst h4
    show parseStringBody (f + 1) acc ('\\' :: 'f' :: rest) = parseStringBody f ('\x0c' :: acc) rest
    conv_lhs => unfold parseStringBody
    rw [if_neg (by decide), if_pos rfl]
    dsimp only
    rw [if_neg (by decide), if_neg (by decide), if_neg (by decide), if_neg (by decide), if_pos rfl]
  rw [if_neg h4]
  by_cases h5 : c = '\n'
  · subst h5
    show parseStringBody (f + 1) acc ('\\' :: 'n' :: rest) = parseStringBody f ('\n' :: acc) rest
    conv_lhs => unfold parseStringBody
    rw [if_neg (by decide), if_pos rfl]
    dsimp only
    rw [if_neg (by decide), if_neg (by decide), if_neg (by decide), if_neg (by decide), if_neg (by decide), if_pos rfl]
  rw [if_neg h5]
  by_cases h6 : c = '\r'
  · subst h6
    show parseStringBody (f + 1) acc ('\\' :: 'r' :: rest) = parseStringBody f ('\r' :: acc) rest
    conv_lhs => unfold parseStringBody
    rw [if_neg (by decide), if_pos rfl]
    dsimp only
    rw [if_neg (by decide), if_neg (by decide), if_neg (by decide), if_neg (by decide), if_neg (by decide), if_neg (by decide), if_pos rfl]
  rw [if_neg h6]
  by_cases h7 : c = '\t'
  · subst h7
    show parseStringBody (f + 1) acc ('\\' :: 't' :: rest) = parseStringBody f ('\t' :: acc) rest
    conv_lhs => unfold parseStringBody
    rw [if_neg (by decide), if_pos rfl]
    dsimp only
    rw [if_neg (by decide), if_neg (by decide), if_neg (by decide), if_neg (by decide), if_neg (by decide), if_neg (by decide), if_neg (by decide), if_pos rfl]
  rw [if_neg h7]
  by_cases h8 : 0x20 ≤ c.toNat ∧ c.toNat ≤ 0x7e
  · rw [if_pos h8]
    show parseStringBody (f + 1) acc (c :: rest) = _
    conv_lhs => unfold parseStringBody
    rw [if_neg h1, if_neg h2, if_neg (by omega : ¬ c.toNat < 0x20)]
  rw [if_neg h8]
  have hval := char_valid_nat c
  by_cases h9 : c.toNat < 0x10000
  · -- BMP escape \uXXXX
    rw [if_pos h9]
    unfold hex4
    show parseStringBody (f + 1) acc
      ('\\' :: 'u' :: toHexDigit (c.toNat / 4096 % 16) :: toHexDigit (c.toNat / 256 % 16) ::
        toHexDigit (c.toNat / 16 % 16) :: toHexDigit (c.toNat % 16) :: rest) = _
    rw [parseStringBody_u4 f acc rest _ _ _ _ _ _ _ _
          (hexVal_toHexDigit _ (by omega)) (hexVal_toHexDigit _ (by omega))
          (hexVal_toHexDigit _ (by omega)) (hexVal_toHexDigit _ (by omega))
          (by omega) (by omega)]
    have hn : c.toNat / 4096 % 16 * 4096 + c.toNat / 256 % 16 * 256 +
        c.toNat / 16 % 16 * 16 + c.toNat % 16 = c.toNat := by omega
    rw [hn, Char.ofNat_toNat]
  · -- astral plane: surrogate pair
    rw [if_neg h9]
    unfold hex4
    have hv : c.toNat - 0x10000 < 0x100000 := by omega
    set v := c.toNat - 0x10000 with hvdef
    show parseStringBody (f + 1) acc
      ( ('\\' :: 'u' :: toHexDigit ((0xd800 + v / 1024) / 4096 % 16) ::
          toHexDigit ((0xd800 + v / 1024) / 256 % 16) ::
          toHexDigit ((0xd800 + v / 1024) / 16 % 16) ::
          toHexDigit ((0xd800 + v / 1024) % 16) :: []) ++
        ('\\' :: 'u' :: toHexDigit ((0xdc00 + v % 1024) / 4096 % 16) ::
          toHexDigit ((0xdc00 + v % 1024) / 256 % 16) ::
          toHexDigit ((0xdc00 + v % 1024) / 16 % 16) ::
          toHexDigit ((0xdc00 + v % 1024) % 16) :: []) ++ rest) = _
    simp only [List.cons_append, List.nil_append]
    rw [parseStringBody_surrogatePair f acc rest _ _ _ _ _ _ _ _ _ _ _ _ _ _ _ _
          (hexVal_toHexDigit _ (by omega)) (hexVal_toHexDigit _ (by omega))
          (hexVal_toHexDigit _ (by omega)) (hexVal_toHexDigit _ (by omega))
          (hexVal_toHexDigit _ (by omega)) (hexVal_toHexDigit _ (by omega))
          (hexVal_toHexDigit _ (by omega)) (hexVal_toHexDigit _ (by omega))
          (by constructor <;> omega) (by constructor <;> omega)]
    have hhi : (0xd800 + v / 1024) / 4096 % 16 * 4096 + (0xd800 + v / 1024) / 256 % 16 * 256 +
        (0xd800 + v / 1024) / 16 % 16 * 16 + (0xd800 + v / 1024) % 16 = 0xd800 + v / 1024 := by
      omega
    have hlo : (0xdc00 + v % 1024) / 4096 % 16 * 4096 + (0xdc00 + v % 1024) / 256 % 16 * 256 +
        (0xdc00 + v % 1024) / 16 % 16 * 16 + (0xdc00 + v % 1024) % 16 = 0xdc00 + v % 1024 := by
      omega
    rw [hhi, hlo]
    have hcp : 0x10000 + (0xd800 + v / 1024 - 0xd800) * 1024 + (0xdc00 + v % 1024 - 0xdc00) =
        c.toNat := by omega
    rw [hcp, Char.ofNat_toNat]

/-- A whole escaped string body is decoded back, leaving `rest`. -/
theorem parseStringBody_escList (l : List Char) (acc rest : List Char) (f : Nat) :
    parseStringBody (f + (l.length + 1)) acc (escList l ++ ('\x22' :: rest)) =
      some (⟨acc.reverse ++ l⟩, rest) := by
  induction l generalizing acc f with
  | nil =>
    show parseStringBody (f + 1) acc ('\x22' :: rest) = _
    unfold parseStringBody
    rw [if_pos rfl]
    simp
  | cons c cs ih =>
    show parseStringBody (f + (cs.length + 1 + 1)) acc
      ((escapeChar c ++ escList cs) ++ ('\x22' :: rest)) = _
    rw [List.append_assoc,
        show f + (cs.length + 1 + 1) = (f + (cs.length + 1)) + 1 from by omega,
        parseStringBody_escapeChar, ih]
    simp

/-- `parseValue` only looks at its input through `skipWs`. -/
theorem parseValue_ws_invariant (f : Nat) (a b : List Char) (h : skipWs a = skipWs b) :
    parseValue f a = parseValue f b := by
  cases f with
  | zero => rfl
  | succ g =>
    unfold parseValue
    rw [h]

theorem parseValue_step_quote (g : Nat) (y : List Char) :
    parseValue (g + 1) ('\x22' :: y) =
      (parseStringBody (y.length + 1) [] y).map (fun p => (Json.str p.1, p.2)) := rfl

theorem parseValue_step_lbrace (g : Nat) (y : List Char) :
    parseValue (g + 1) ('\x7b' :: y) =
      (match skipWs y with
       | [] => parseMembers g [] []
       | d :: cs2 =>
         if d = '\x7d' then some (Json.obj [], cs2) else parseMembers g (d :: cs2) []) := rfl

theorem parseValue_step_lbrack (g : Nat) (y : List Char) :
    parseValue (g + 1) ('[' :: y) =
      (match skipWs y with
       | [] => parseItems g [] []
       | d :: cs2 =>
         if d = ']' then some (Json.arr [], cs2) else parseItems g (d :: cs2) []) := rfl

/-- The rendering of any string parses back to that string. -/
theorem parse_dumpString (s : String) (rest : List Char) (f : Nat) :
    parseValue (f + 1) (dumpString s ++ rest) = some (Json.str s, rest) := by
  show parseValue (f + 1) ('\x22' :: ((escList s.data ++ ['\x22']) ++ rest)) = _
  rw [List.append_assoc, parseValue_step_quote,
      show (['\x22'] ++ rest : List Char) = '\x22' :: rest from rfl]
  have hge := escList_length_ge s.data
  obtain ⟨g, hg⟩ : ∃ g, (escList s.data ++ ('\x22' :: rest)).length + 1 =
      g + (s.data.length + 1) := by
    refine ⟨(escList s.data).length - s.data.length + rest.length + 1, ?_⟩
    rw [List.length_append]
    simp only [List.length_cons]
    omega
  rw [hg, parseStringBody_escList]
  simp

/-! ## C7: parsing back the dumped store -/

/-- The parsed image of one turn. -/
def turnJson (t : Turn) : Json :=
  Json.obj [("role", Json.str t.role), ("content", Json.str t.content)]

/-- The parsed image of one session. -/
def sessionJson (c : Session) : Json := Json.arr (c.map turnJson)

/-- The parsed image of the whole store. -/
def storeJson (s : Store) : Json :=
  Json.obj (s.map (fun p => (p.1, sessionJson p.2)))

theorem parseItems_ws_invariant (f : Nat) (a b : List Char) (acc : List Json)
    (h : skipWs a = skipWs b) : parseItems f a acc = parseItems f b acc := by
  cases f with
  | zero => rfl
  | succ g =>
    unfold parseItems
    rw [parseValue_ws_invariant g a b h]

/-- One `"key": "string value"` member step of `parseMembers`. -/
theorem parseMembers_kv_step (g : Nat) (key s : String) (x : List Char)
    (acc : List (String × Json)) :
    parseMembers (g + 2) ('\x22' :: (escList key.data ++ ('\x22' :: (':' :: (' ' ::
        (dumpString s ++ x)))))) acc =
      (match skipWs x with
       | [] => none
       | d2 :: r4 =>
         if d2 = ',' then parseMembers (g + 1) (skipWs r4) ((key, Json.str s) :: acc)
         else if d2 = '\x7d' then some (Json.obj ((key, Json.str s) :: acc).reverse, r4)
         else none) := by
  conv_lhs => unfold parseMembers
  dsimp only
  rw [if_pos rfl]
  obtain ⟨h, hh⟩ : ∃ h,
      (escList key.data ++ ('\x22' :: (':' :: (' ' :: (dumpString s ++ x))))).length + 1 =
        h + (key.data.length + 1) := by
    have := escList_length_ge key.data
    refine ⟨(escList key.data).length - key.data.length +
      (':' :: (' ' :: (dumpString s ++ x))).length + 1, ?_⟩
    rw [List.length_append]
    simp only [List.length_cons]
    omega
  rw [hh, parseStringBody_escList]
  dsimp only
  rw [skipWs_not _ _ (by decide)]
  dsimp only
  rw [if_pos rfl]
  rw [parseValue_ws_invariant (g + 1) _ (dumpString s ++ x) (skipWs_ws _ _ (by decide))]
  rw [parse_dumpString s x g]
  rfl

/-- The rendering of one turn parses back to its `Json` image. -/
theorem parse_dumpTurn (t : Turn) (ind : Nat) (rest : List Char) (f : Nat) :
    parseValue (f + 4) (dumpTurn ind t ++ rest) = some (turnJson t, rest) := by
  have hrole : dumpString "role" = '\x22' :: (escList "role".data ++ ['\x22']) := rfl
  have hcontent : dumpString "content" = '\x22' :: (escList "content".data ++ ['\x22']) := rfl
  simp only [dumpTurn, hrole, hcontent, List.cons_append, List.append_assoc, List.nil_append]
  rw [show f + 4 = (f + 3) + 1 from rfl, parseValue_step_lbrace]
  rw [skipWs_ws _ _ (by decide), skipWs_spaces, skipWs_not _ _ (by decide)]
  dsimp only
  rw [if_neg (by decide)]
  rw [show f + 3 = (f + 1) + 2 from rfl, parseMembers_kv_step]
  rw [skipWs_not _ _ (by decide)]
  dsimp only
  rw [if_pos rfl]
  rw [skipWs_ws _ _ (by decide), skipWs_spaces, skipWs_not _ _ (by decide)]
  rw [show f + 1 + 1 = f + 2 from rfl, parseMembers_kv_step]
  rw [skipWs_ws _ _ (by decide), skipWs_spaces, skipWs_not _ _ (by decide)]
  dsimp only
  rw [if_neg (by decide), if_pos rfl]
  rfl

/-- Parsing the items of a dumped turn array. -/
theorem parseItems_dumpTurns (ts : List Turn) (t : Turn) (ind m : Nat) (acc : List Json)
    (rest : List Char) (f : Nat) :
    parseItems (f + (5 * ts.length + 5))
      (dumpTurn ind t ++ (dumpTurnsTail ind ts ++ ('\n' :: (spaces m ++ (']' :: rest))))) acc =
      some (Json.arr (acc.reverse ++ (t :: ts).map turnJson), rest) := by
  induction ts generalizing t acc f with
  | nil =>
    rw [show f + (5 * List.length [] + 5) = (f + 4) + 1 from rfl]
    conv_lhs => unfold parseItems
    simp only [dumpTurnsTail, List.nil_append]
    rw [parse_dumpTurn]
    dsimp only
    rw [skipWs_ws _ _ (by decide), skipWs_spaces, skipWs_not _ _ (by decide)]
    dsimp only
    rw [if_neg (by decide), if_pos rfl]
    simp
  | cons t2 ts2 ih =>
    rw [show f + (5 * List.length (t2 :: ts2) + 5) = (((f + 4) + (5 * ts2.length + 5)) + 1)
        from by simp [List.length_cons]; omega]
    conv_lhs => unfold parseItems
    simp only [dumpTurnsTail, List.cons_append, List.append_assoc]
    rw [show (f + 4) + (5 * ts2.length + 5) = (f + (5 * ts2.length + 5)) + 4 from by omega]
    rw [parse_dumpTurn]
    dsimp only
    rw [skipWs_not _ _ (by decide)]
    dsimp only
    rw [if_pos rfl]
    rw [parseItems_ws_invariant _ _
        (dumpTurn ind t2 ++ (dumpTurnsTail ind ts2 ++ ('\n' :: (spaces m ++ (']' :: rest))))) _
        (by rw [skipWs_ws _ _ (by decide), skipWs_spaces])]
    rw [show (f + (5 * ts2.length + 5)) + 4 = (f + 4) + (5 * ts2.length + 5) from by omega]
    rw [ih t2 (turnJson t :: acc) (f + 4)]
    simp

/-- The rendering of one session parses back to its `Json` image. -/
theorem parse_dumpSession (v : Session) (ind : Nat) (rest : List Char) (f : Nat) :
    parseValue (f + (5 * v.length + 2)) (dumpSession ind v ++ rest) =
      some (sessionJson v, rest) := by
  cases v with
  | nil =>
    rw [show f + (5 * List.length ([] : Session) + 2) = (f + 1) + 1 from rfl]
    show parseValue ((f + 1) + 1) ('[' :: (']' :: rest)) = _
    rw [parseValue_step_lbrack, skipWs_not _ _ (by decide)]
    dsimp only
    rw [if_pos rfl]
    rfl
  | cons t ts =>
    simp only [dumpSession, List.cons_append, List.append_assoc, List.nil_append]
    rw [show f + (5 * List.length (t :: ts) + 2) = ((f + 1) + (5 * ts.length + 5)) + 1
        from by simp [List.length_cons]; omega]
    rw [parseValue_step_lbrack]
    rw [skipWs_ws _ _ (by decide), skipWs_spaces]
    obtain ⟨z, hz⟩ : ∃ z,
        dumpTurn (ind + 1) t ++
          (dumpTurnsTail (ind + 1) ts ++ ('\n' :: (spaces (2 * ind) ++ (']' :: rest)))) =
        '\x7b' :: z := ⟨_, rfl⟩
    rw [hz, skipWs_not _ _ (by decide)]
    dsimp only
    rw [if_neg (by decide)]
    rw [← hz]
    rw [parseItems_dumpTurns]
    simp [sessionJson]

/-- Parser fuel consumed by a run of store members. -/
def membersFuel : Store → Nat
  | [] => 0
  | (_, v) :: ss => 5 * v.length + 4 + membersFuel ss

/-- Parsing a run of dumped store members. -/
theorem parseMembers_dumpMembers (ss : Store) (k : String) (v : Session)
    (acc : List (String × Json)) (rest : List Char) (f : Nat) :
    parseMembers (f + (5 * v.length + 4 + membersFuel ss))
      ('\x22' :: (escList k.data ++ ('\x22' :: (':' :: (' ' ::
        (dumpSession 1 v ++ (dumpMembersTail ss ++ ('\n' :: ('\x7d' :: rest))))))))) acc =
      some (Json.obj (acc.reverse ++ ((k, v) :: ss).map (fun p => (p.1, sessionJson p.2))),
            rest) := by
  induction ss generalizing k v acc f with
  | nil =>
    rw [show f + (5 * v.length + 4 + membersFuel []) = (f + (5 * v.length + 3)) + 1
        from by simp [membersFuel]; omega]
    conv_lhs => unfold parseMembers
    dsimp only
    rw [if_pos rfl]
    obtain ⟨h, hh⟩ : ∃ h,
        (escList k.data ++ ('\x22' :: (':' :: (' ' ::
          (dumpSession 1 v ++ (dumpMembersTail [] ++ ('\n' :: ('\x7d' :: rest)))))))).length + 1 =
          h + (k.data.length + 1) := by
      have := escList_length_ge k.data
      refine ⟨(escList k.data).length - k.data.length +
        (':' :: (' ' :: (dumpSession 1 v ++
          (dumpMembersTail [] ++ ('\n' :: ('\x7d' :: rest)))))).length + 1, ?_⟩
      rw [List.length_append]
      simp only [List.length_cons]
      omega
    rw [hh, parseStringBody_escList]
    dsimp only
    rw [skipWs_not _ _ (by decide)]
    dsimp only
    rw [if_pos rfl]
    simp only [dumpMembersTail, List.nil_append]
    rw [parseValue_ws_invariant _ _ (dumpSession 1 v ++ ('\n' :: ('\x7d' :: rest)))
        (skipWs_ws _ _ (by decide))]
    rw [show f + (5 * v.length + 3) = (f + 1) + (5 * v.length + 2) from by omega]
    rw [parse_dumpSession]
    dsimp only
    rw [skipWs_ws _ _ (by decide), skipWs_not _ _ (by decide)]
    dsimp only
    rw [if_neg (by decide), if_pos rfl]
    simp
  | cons p ss2 ih =>
    obtain ⟨k2, v2⟩ := p
    rw [show f + (5 * v.length + 4 + membersFuel ((k2, v2) :: ss2)) =
        (f + (5 * v.length + 3 + membersFuel ((k2, v2) :: ss2))) + 1 from by omega]
    conv_lhs => unfold parseMembers
    dsimp only
    rw [if_pos rfl]
    obtain ⟨h, hh⟩ : ∃ h,
        (escList k.data ++ ('\x22' :: (':' :: (' ' ::
          (dumpSession 1 v ++ (dumpMembersTail ((k2, v2) :: ss2) ++
            ('\n' :: ('\x7d' :: rest)))))))).length + 1 =
          h + (k.data.length + 1) := by
      have := escList_length_ge k.data
      refine ⟨(escList k.data).length - k.data.length +
        (':' :: (' ' :: (dumpSession 1 v ++ (dumpMembersTail ((k2, v2) :: ss2) ++
          ('\n' :: ('\x7d' :: rest)))))).length + 1, ?_⟩
      rw [List.length_append]
      simp only [List.length_cons]
      omega
    rw [hh, parseStringBody_escList]
    dsimp only
    rw [skipWs_not _ _ (by decide)]
    dsimp only
    rw [if_pos rfl]
    rw [parseValue_ws_invariant _ _
        (dumpSession 1 v ++ (dumpMembersTail ((k2, v2) :: ss2) ++ ('\n' :: ('\x7d' :: rest))))
        (skipWs_ws _ _ (by decide))]
    rw [show f + (5 * v.length + 3 + membersFuel ((k2, v2) :: ss2)) =
        ((f + 1 + membersFuel ((k2, v2) :: ss2))) + (5 * v.length + 2) from by omega]
    rw [parse_dumpSession]
    dsimp only
    simp only [dumpMembersTail, List.cons_append, List.append_assoc, List.nil_append,
      show ∀ x, dumpString k2 ++ x = '\x22' :: (escList k2.data ++ ('\x22' :: x))
        from fun x => by simp [dumpString]]
    rw [skipWs_not _ _ (by decide)]
    dsimp only
    rw [if_pos rfl]
    rw [skipWs_ws _ _ (by decide), skipWs_spaces, skipWs_not _ _ (by decide)]
    rw [show f + 1 + membersFuel ((k2, v2) :: ss2) + (5 * v.length + 2) =
        (f + (5 * v.length + 3)) + (5 * v2.length + 4 + membersFuel ss2)
        from by simp [membersFuel]; omega]
    rw [ih]
    simp

/-- The dumped store parses back to its `Json` image. -/
theorem parse_dumpStore (s : Store) (rest : List Char) (f : Nat) :
    parseValue (f + (membersFuel s + 1)) (dumpStore s ++ rest) =
      some (storeJson s, rest) := by
  cases s with
  | nil =>
    rw [show f + (membersFuel [] + 1) = f + 1 from by simp [membersFuel]]
    show parseValue (f + 1) ('\x7b' :: ('\x7d' :: rest)) = _
    rw [parseValue_step_lbrace, skipWs_not _ _ (by decide)]
    dsimp only
    rw [if_pos rfl]
    rfl
  | cons p ss =>
    obtain ⟨k, v⟩ := p
    simp only [dumpStore, List.cons_append, List.append_assoc, List.nil_append,
      show ∀ x, dumpString k ++ x = '\x22' :: (escList k.data ++ ('\x22' :: x))
        from fun x => by simp [dumpString]]
    rw [show f + (membersFuel ((k, v) :: ss) + 1) =
        ((f + (5 * v.length + 4 + membersFuel ss))) + 1 from by simp [membersFuel]; omega]
    rw [parseValue_step_lbrace]
    rw [skipWs_ws _ _ (by decide), skipWs_spaces, skipWs_not _ _ (by decide)]
    dsimp only
    rw [if_neg (by decide)]
    rw [parseMembers_dumpMembers]
    simp [storeJson]

/-! ## C7: fuel bounds and the round-trip theorem -/

theorem dumpTurn_length_ge (ind : Nat) (t : Turn) : 5 ≤ (dumpTurn ind t).length := by
  simp only [dumpTurn, dumpString, List.length_cons, List.length_append]
  omega

theorem dumpTurnsTail_length_ge (ind : Nat) (ts : List Turn) :
    5 * ts.length ≤ (dumpTurnsTail ind ts).length := by
  induction ts with
  | nil => simp [dumpTurnsTail]
  | cons t rest ih =>
    have h1 := dumpTurn_length_ge ind t
    simp only [dumpTurnsTail, List.length_cons, List.length_append, List.length_cons]
    simp only [List.length_cons] at ih ⊢
    omega

theorem dumpSession_length_ge (ind : Nat) (v : Session) :
    5 * v.length + 2 ≤ (dumpSession ind v).length := by
  cases v with
  | nil => simp [dumpSession]
  | cons t ts =>
    have h1 := dumpTurn_length_ge (ind + 1) t
    have h2 := dumpTurnsTail_length_ge (ind + 1) ts
    simp only [dumpSession, List.length_cons, List.length_append]
    omega

theorem dumpMembersTail_length_ge (ss : Store) :
    membersFuel ss ≤ (dumpMembersTail ss).length := by
  induction ss with
  | nil => simp [membersFuel, dumpMembersTail]
  | cons p rest ih =>
    obtain ⟨k, v⟩ := p
    have h1 := dumpSession_length_ge 1 v
    simp only [membersFuel, dumpMembersTail, List.length_cons, List.length_append]
    omega

theorem dumpStore_length_ge (s : Store) : membersFuel s ≤ (dumpStore s).length := by
  cases s with
  | nil => simp [membersFuel, dumpStore]
  | cons p ss =>
    obtain ⟨k, v⟩ := p
    have h1 := dumpSession_length_ge 1 v
    have h2 := dumpMembersTail_length_ge ss
    simp only [membersFuel, dumpStore, List.length_cons, List.length_append]
    omega

/-- The dumped store text parses back to the store's `Json` image. -/
theorem jsonLoads_saveConversations (s : Store) :
    jsonLoads (saveConversations s) = some (storeJson s) := by
  unfold jsonLoads saveConversations
  have hdata : (⟨dumpStore s⟩ : String).data = dumpStore s := rfl
  rw [hdata]
  obtain ⟨f, hf⟩ : ∃ f, (dumpStore s).length + 1 = f + (membersFuel s + 1) := by
    have := dumpStore_length_ge s
    exact ⟨(dumpStore s).length - membersFuel s, by omega⟩
  rw [hf]
  have hp := parse_dumpStore s [] f
  rw [List.append_nil] at hp
  rw [hp]
  rfl

theorem jsonToTurn_turnJson (t : Turn) : jsonToTurn (turnJson t) = some t := rfl

theorem jsonToTurns_map (ts : List Turn) : jsonToTurns (ts.map turnJson) = some ts := by
  induction ts with
  | nil => rfl
  | cons t rest ih => simp [jsonToTurns, jsonToTurn_turnJson, ih]

theorem jsonToSession_sessionJson (v : Session) : jsonToSession (sessionJson v) = some v := by
  simp [jsonToSession, sessionJson, jsonToTurns_map]

theorem jsonToStore_storeJson (s : Store) : jsonToStore (storeJson s) = some s := by
  unfold jsonToStore storeJson
  induction s with
  | nil => rfl
  | cons p rest ih =>
    obtain ⟨k, v⟩ := p
    dsimp only at ih
    simp only [List.map_cons, jsonToMembers, jsonToSession_sessionJson]
    simp [ih]

/-- C7: saving the store to the durable file and loading it back yields
the same store: every session key maps to the identical ordered turn
sequence.  The hypothesis restricts to stores with pairwise-distinct
keys — exactly the states a Python dict can hold. -/
theorem C7_save_load_roundtrip (s : Store) (hnd : (s.map Prod.fst).Nodup) :
    loadConversations (some (saveConversations s)) = s ∧
    ∀ k, storeGet (loadConversations (some (saveConversations s))) k = storeGet s k := by
  have h : loadConversations (some (saveConversations s)) = s := by
    unfold loadConversations
    dsimp only
    rw [jsonLoads_saveConversations]
    dsimp only
    rw [jsonToStore_storeJson]
    rfl
  exact ⟨h, fun k => by rw [h]⟩

/-- C7 witness: a concrete one-session store round-trips. -/
theorem C7_save_load_roundtrip_witness :
    (([("u", [⟨"system", "hello"⟩, ⟨"user", "hi there"⟩])] : Store).map Prod.fst).Nodup ∧
    loadConversations (some (saveConversations
        [("u", [⟨"system", "hello"⟩, ⟨"user", "hi there"⟩])])) =
      [("u", [⟨"system", "hello"⟩, ⟨"user", "hi there"⟩])] :=
  ⟨by simp, (C7_save_load_roundtrip _ (by simp)).1⟩

end InterviewBot
